import Mathlib

/-!
# Verification of the attendance recording and aggregation engine

Shallow embedding of the core logic of `app.py` (single-file Flask college
attendance system): the attendance ledger (`mark_attendance`), the leave
reconciler (`approve_leave` / `reject_leave`) and the aggregation engine
(`calculate_attendance_percentage`, `get_defaulter_students`).

The database is modelled as a `List` of records in insertion (rowid) order:
a SQLAlchemy `.first()` becomes `List.find?`, a `.delete()` on a filtered
query becomes `List.filter` with the negated predicate, and inserts append
at the end.  Dates are modelled as day numbers (`Nat`); the `None` period of
a session-wise (FN/AN) record is `Option.none`.  The Python builtin
`round(x, 2)` (round half to even on the scaled value) is modelled exactly
on `ℚ`.
-/

namespace AttendanceSys

/-- One row of the `attendance` table (model class `Attendance` in `app.py`).
The autoincrement `id` is not modelled; list position plays its role. -/
structure Attendance where
  student_id : Nat
  subject_id : Nat
  teacher_id : Nat
  date : Nat
  session_type : String
  period : Option Nat
  status : String
  remarks : String
  marked_at : Nat
  is_locked : Bool
deriving Repr, DecidableEq

/-- One row of the `student` table (only the fields the claims touch). -/
structure Student where
  id : Nat
  roll_number : String
  name : String
  is_active : Bool
deriving Repr, DecidableEq

/-- One row of the `leave_request` table. -/
structure LeaveRequest where
  student_id : Nat
  from_date : Nat
  to_date : Nat
  leave_type : String
  reason : String
  status : String
  approved_by : Option Nat
  approved_at : Option Nat
deriving Repr, DecidableEq

/-- One item of the JSON `attendance` array posted to `/attendance/mark`:
`{student_id, status, remarks}`. -/
structure Entry where
  student_id : Nat
  status : String
  remarks : String
deriving Repr, DecidableEq

/-- The filter used twice in `mark_attendance`:
`Attendance.query.filter_by(subject_id=…, teacher_id=teacher.id, date=…,
session_type=…, period=…)`.  Note that it includes the recording teacher. -/
def matchesSession (subj teach d : Nat) (st : String) (p : Option Nat)
    (r : Attendance) : Bool :=
  r.subject_id = subj && r.teacher_id = teach && r.date = d &&
    r.session_type = st && r.period = p

/-- The record inserted by `mark_attendance` for one entry: stamped with the
current teacher, fresh `marked_at`, default `is_locked=False`. -/
def mkAttendance (subj teach d : Nat) (st : String) (p : Option Nat)
    (now : Nat) (e : Entry) : Attendance :=
  { student_id := e.student_id, subject_id := subj, teacher_id := teach,
    date := d, session_type := st, period := p, status := e.status,
    remarks := e.remarks, marked_at := now, is_locked := false }

def lockedMsg : String := "Attendance is locked and cannot be modified"

/-- The POST branch of `mark_attendance` in `app.py` (after date parsing):
looks up the *first* record matching the session filter, fails if it is
locked, otherwise deletes all records matching the filter and appends one
new record per posted entry. -/
def mark_attendance (subj teach d : Nat) (st : String) (p : Option Nat)
    (entries : List Entry) (now : Nat) (ledger : List Attendance) :
    Except String (List Attendance) :=
  match ledger.find? (matchesSession subj teach d st p) with
  | some existing =>
      if existing.is_locked then Except.error lockedMsg
      else Except.ok
        (ledger.filter (fun r => !(matchesSession subj teach d st p r)) ++
          entries.map (mkAttendance subj teach d st p now))
  | none =>
      Except.ok
        (ledger.filter (fun r => !(matchesSession subj teach d st p r)) ++
          entries.map (mkAttendance subj teach d st p now))

/-- Round half to even at integer precision, the behaviour of the Python
builtin `round` on an exactly-representable value. -/
def roundHalfEven (q : ℚ) : ℤ :=
  if q - ⌊q⌋ < 1/2 then ⌊q⌋
  else if 1/2 < q - ⌊q⌋ then ⌊q⌋ + 1
  else if ⌊q⌋ % 2 = 0 then ⌊q⌋ else ⌊q⌋ + 1

/-- The Python call `round(x, 2)`: round half to even at two decimal
places. -/
def round2 (q : ℚ) : ℚ := (roundHalfEven (q * 100) : ℚ) / 100

/-- The membership test of `Attendance.status` against the list Present,
Late, OD: the numerator predicate shared by all three aggregation queries
in `app.py`. -/
def presentStatus (s : String) : Bool :=
  s = "Present" || s = "Late" || s = "OD"

/-- The row filter built by `calculate_attendance_percentage`: always by
student, then by subject / from-date / to-date when those arguments are
given (`None` arguments add no filter). -/
def matchesFilters (sid : Nat) (subj : Option Nat) (fromD toD : Option Nat)
    (r : Attendance) : Bool :=
  r.student_id = sid &&
    (match subj with | none => true | some s => r.subject_id = s) &&
    (match fromD with | none => true | some f => f ≤ r.date) &&
    (match toD with | none => true | some t => r.date ≤ t)

/-- `calculate_attendance_percentage(student_id, subject_id, from_date,
to_date)`: counts matching rows and matching present-set rows, returns 0
when there are no rows, else `round((present / total) * 100, 2)`. -/
def calculate_attendance_percentage (sid : Nat) (subj : Option Nat)
    (fromD toD : Option Nat) (ledger : List Attendance) : ℚ :=
  let matching := ledger.filter (matchesFilters sid subj fromD toD)
  let total := matching.length
  let present := (matching.filter (fun r => presentStatus r.status)).length
  if total = 0 then 0
  else round2 (((present : ℚ) / (total : ℚ)) * 100)

/-- Per-student aggregate of the grouped subquery of
`get_defaulter_students`: `(total, present)` over the whole ledger. -/
def studentAgg (sid : Nat) (ledger : List Attendance) : Nat × Nat :=
  ((ledger.filter (fun r => r.student_id = sid)).length,
   (ledger.filter (fun r => r.student_id = sid && presentStatus r.status)).length)

/-- `get_defaulter_students(threshold)`: joins the per-student aggregate to
active students (students with at least one attendance row), keeps those
with `round(present/total*100, 2) < threshold`, appends active students with
no rows at 0.0 when `0 < threshold`, and sorts ascending by percentage. -/
def get_defaulter_students (threshold : ℚ) (students : List Student)
    (ledger : List Attendance) : List (Student × ℚ) :=
  let withRows := students.filter
    (fun s => s.is_active && ledger.any (fun r => r.student_id = s.id))
  let part1 := (withRows.map (fun s =>
      let agg := studentAgg s.id ledger
      let perc : ℚ :=
        if 0 < agg.1 then round2 (((agg.2 : ℚ) / (agg.1 : ℚ)) * 100) else 0
      (s, perc))).filter (fun sp => decide (sp.2 < threshold))
  let zeros := (students.filter
      (fun s => s.is_active && !(ledger.any (fun r => r.student_id = s.id)))).map
    (fun s => (s, (0 : ℚ)))
  let part2 := if 0 < threshold then zeros else []
  (part1 ++ part2).mergeSort (fun a b => decide (a.2 ≤ b.2))

/-- The remark written by the reconciliation loop of `approve_leave`: the
f-string interpolating the leave type after the text `Leave approved: `. -/
def odRemark (leaveType : String) : String :=
  "Leave approved: " ++ leaveType

/-- The overwrite performed on one matched record by `approve_leave`: the
status becomes `OD` and the remark becomes the leave remark. -/
def odUpdate (leaveType : String) (r : Attendance) : Attendance :=
  { r with status := "OD", remarks := odRemark leaveType }

/-- One iteration of the date loop of `approve_leave`: overwrite every
attendance record of the student on the given date to `OD` with the leave
remark. -/
def applyODdate (sid d : Nat) (leaveType : String)
    (ledger : List Attendance) : List Attendance :=
  ledger.map (fun r =>
    if r.student_id = sid ∧ r.date = d then odUpdate leaveType r else r)

/-- The `while current_date <= leave.to_date` loop of `approve_leave`,
unrolled on the number of remaining dates. -/
def approveGo (sid : Nat) (leaveType : String) :
    Nat → Nat → List Attendance → List Attendance
  | 0, _, ledger => ledger
  | n + 1, d, ledger => approveGo sid leaveType n (d + 1)
      (applyODdate sid d leaveType ledger)

/-- `approve_leave(leave_id)` on a fetched leave: unconditionally sets the
leave to `approved`, stamps approver and time, then runs the reconciliation
loop over `[from_date, to_date]` (`to_date + 1 - from_date` iterations,
which is 0 when `from_date > to_date`). -/
def approve_leave (lv : LeaveRequest) (approver now : Nat)
    (ledger : List Attendance) : LeaveRequest × List Attendance :=
  ({ lv with status := "approved", approved_by := some approver,
             approved_at := some now },
   approveGo lv.student_id lv.leave_type (lv.to_date + 1 - lv.from_date)
     lv.from_date ledger)

/-- `reject_leave(leave_id)` on a fetched leave: unconditionally sets the
leave to `rejected`, stamps approver and time, touches no attendance row. -/
def reject_leave (lv : LeaveRequest) (approver now : Nat)
    (ledger : List Attendance) : LeaveRequest × List Attendance :=
  ({ lv with status := "rejected", approved_by := some approver,
             approved_at := some now },
   ledger)

/-- Projection that forgets the `marked_at` timestamp, for comparing ledger
states produced at different times. -/
def stripTime (r : Attendance) : Attendance :=
  { r with marked_at := 0 }

/-! ## Helper lemmas about rounding -/

lemma roundHalfEven_intCast (n : ℤ) : roundHalfEven (n : ℚ) = n := by
  norm_num [roundHalfEven]

lemma round2_eq_intCast {q : ℚ} {n : ℤ} (h : q * 100 = (n : ℚ)) :
    round2 q = (n : ℚ) / 100 := by
  unfold round2
  rw [h, roundHalfEven_intCast]

lemma roundHalfEven_nonneg {q : ℚ} (h : 0 ≤ q) : 0 ≤ roundHalfEven q := by
  have hf : 0 ≤ ⌊q⌋ := Int.floor_nonneg.mpr h
  unfold roundHalfEven
  split_ifs <;> omega

lemma roundHalfEven_le {q : ℚ} {n : ℤ} (h : q ≤ (n : ℚ)) :
    roundHalfEven q ≤ n := by
  have h1 : ⌊q⌋ ≤ n := by
    have := Int.floor_mono h
    simpa using this
  have h2 : (1 : ℚ)/2 ≤ q - ⌊q⌋ → ⌊q⌋ < n := by
    intro hh
    have hq : (⌊q⌋ : ℚ) < q := by linarith
    exact_mod_cast lt_of_lt_of_le hq h
  unfold roundHalfEven
  split_ifs with hc1 hc2 hc3
  · exact h1
  · have := h2 (by linarith)
    omega
  · exact h1
  · have := h2 (by linarith)
    omega

lemma round2_nonneg {q : ℚ} (h : 0 ≤ q) : 0 ≤ round2 q := by
  unfold round2
  apply div_nonneg _ (by norm_num)
  exact_mod_cast roundHalfEven_nonneg (mul_nonneg h (by norm_num))

lemma round2_le_100 {q : ℚ} (h : q ≤ 100) : round2 q ≤ 100 := by
  unfold round2
  rw [div_le_iff₀ (by norm_num : (0:ℚ) < 100)]
  have h1 : roundHalfEven (q * 100) ≤ (10000 : ℤ) :=
    roundHalfEven_le (by push_cast; linarith)
  have h2 : ((roundHalfEven (q * 100) : ℤ) : ℚ) ≤ 10000 := by exact_mod_cast h1
  linarith

/-! ## Helper lemmas about the aggregation engine -/

lemma calculate_eq (sid : Nat) (subj fromD toD : Option Nat)
    (ledger : List Attendance) :
    calculate_attendance_percentage sid subj fromD toD ledger =
      if (ledger.filter (matchesFilters sid subj fromD toD)).length = 0 then 0
      else round2
        (((((ledger.filter (matchesFilters sid subj fromD toD)).filter
              (fun r => presentStatus r.status)).length : ℚ) /
          ((ledger.filter (matchesFilters sid subj fromD toD)).length : ℚ)) * 100) :=
  rfl

lemma presentStatus_eq (s : String) :
    presentStatus s = decide (s = "Present" ∨ s = "Late" ∨ s = "OD") := by
  simp [presentStatus, Bool.or_assoc]

lemma matchesFilters_none (sid : Nat) (r : Attendance) :
    matchesFilters sid none none none r = decide (r.student_id = sid) := by
  simp [matchesFilters]

/-! ## Helper lemmas about the attendance ledger -/

lemma except_ok_ne_error {ε α : Type} (a : α) (b : ε) :
    (Except.ok a : Except ε α) ≠ Except.error b := by
  intro hh
  exact Except.noConfusion hh

lemma except_error_ne_ok {ε α : Type} (a : α) (b : ε) :
    (Except.error b : Except ε α) ≠ Except.ok a := by
  intro hh
  exact Except.noConfusion hh

lemma matchesSession_mkAttendance (subj teach d : Nat) (st : String)
    (p : Option Nat) (now : Nat) (e : Entry) :
    matchesSession subj teach d st p (mkAttendance subj teach d st p now e) =
      true := by
  simp [matchesSession, mkAttendance]

lemma mark_attendance_eq_ok {subj teach d : Nat} {st : String} {p : Option Nat}
    {entries : List Entry} {now : Nat} {ledger L : List Attendance}
    (h : mark_attendance subj teach d st p entries now ledger = Except.ok L) :
    L = ledger.filter (fun r => !(matchesSession subj teach d st p r)) ++
      entries.map (mkAttendance subj teach d st p now) := by
  unfold mark_attendance at h
  split at h
  · split_ifs at h
    simp only [Except.ok.injEq] at h
    exact h.symm
  · simp only [Except.ok.injEq] at h
    exact h.symm

lemma mark_attendance_error_iff {subj teach d : Nat} {st : String}
    {p : Option Nat} {entries : List Entry} {now : Nat}
    {ledger : List Attendance} :
    mark_attendance subj teach d st p entries now ledger =
        Except.error lockedMsg ↔
      ∃ r, ledger.find? (matchesSession subj teach d st p) = some r ∧
        r.is_locked = true := by
  unfold mark_attendance
  split
  · next existing heq =>
      split_ifs with hl
      · exact iff_of_true rfl ⟨existing, heq, hl⟩
      · rw [Bool.not_eq_true] at hl
        simp only [false_iff]
        rintro ⟨r', hr', hl'⟩
        rw [heq, Option.some.injEq] at hr'
        rw [← hr'] at hl'
        rw [hl] at hl'
        exact Bool.noConfusion hl'
  · next heq =>
      refine iff_of_false (except_ok_ne_error _ _) ?_
      rintro ⟨r', hr', _⟩
      rw [heq] at hr'
      exact Option.noConfusion hr'

lemma mark_attendance_ok_of_no_lock {subj teach d : Nat} {st : String}
    {p : Option Nat} {entries : List Entry} {now : Nat}
    {ledger : List Attendance}
    (h : ∀ r ∈ ledger, matchesSession subj teach d st p r = true →
      r.is_locked = false) :
    mark_attendance subj teach d st p entries now ledger =
      Except.ok
        (ledger.filter (fun r => !(matchesSession subj teach d st p r)) ++
          entries.map (mkAttendance subj teach d st p now)) := by
  unfold mark_attendance
  split
  · next existing heq =>
      rw [if_neg (by simp [h existing (List.mem_of_find?_eq_some heq)
        (List.find?_some heq)])]
  · rfl

/-! ## Helper lemmas about the leave reconciler -/

lemma applyODdate_eq (sid d : Nat) (lt : String) (ledger : List Attendance) :
    applyODdate sid d lt ledger =
      ledger.map (fun r =>
        if r.student_id = sid ∧ r.date = d then odUpdate lt r else r) := rfl

lemma odUpdate_student_id (lt : String) (r : Attendance) :
    (odUpdate lt r).student_id = r.student_id := rfl

lemma odUpdate_date (lt : String) (r : Attendance) :
    (odUpdate lt r).date = r.date := rfl

lemma odUpdate_idem (lt : String) (r : Attendance) :
    odUpdate lt (odUpdate lt r) = odUpdate lt r := rfl

lemma odStep (sid d n : Nat) (lt : String) (r : Attendance) :
    (if (if r.student_id = sid ∧ r.date = d then odUpdate lt r else r).student_id
            = sid ∧
        d + 1 ≤ (if r.student_id = sid ∧ r.date = d then odUpdate lt r
            else r).date ∧
        (if r.student_id = sid ∧ r.date = d then odUpdate lt r else r).date
            < d + 1 + n
      then odUpdate lt (if r.student_id = sid ∧ r.date = d then odUpdate lt r
          else r)
      else (if r.student_id = sid ∧ r.date = d then odUpdate lt r else r)) =
    (if r.student_id = sid ∧ d ≤ r.date ∧ r.date < d + (n + 1) then
      odUpdate lt r else r) := by
  by_cases h : r.student_id = sid ∧ r.date = d
  · rw [if_pos h]
    simp only [odUpdate_student_id, odUpdate_date]
    rw [if_neg (by rintro ⟨-, hle, -⟩; omega), if_pos ⟨h.1, by omega, by omega⟩]
  · rw [if_neg h]
    by_cases h1 : r.student_id = sid
    · have hd : ¬ r.date = d := fun hh => h ⟨h1, hh⟩
      by_cases h3 : d + 1 ≤ r.date ∧ r.date < d + 1 + n
      · rw [if_pos ⟨h1, h3⟩, if_pos ⟨h1, by omega, by omega⟩]
      · have hn1 : ¬(r.student_id = sid ∧ d + 1 ≤ r.date ∧
            r.date < d + 1 + n) := fun hh => h3 hh.2
        have hn2 : ¬(r.student_id = sid ∧ d ≤ r.date ∧
            r.date < d + (n + 1)) := by
          rintro ⟨-, hle, hlt⟩
          exact h3 ⟨by omega, by omega⟩
        rw [if_neg hn1, if_neg hn2]
    · rw [if_neg (fun hh => h1 hh.1), if_neg (fun hh => h1 hh.1)]

lemma approveGo_eq_map (sid : Nat) (lt : String) (n d : Nat)
    (ledger : List Attendance) :
    approveGo sid lt n d ledger =
      ledger.map (fun r =>
        if r.student_id = sid ∧ d ≤ r.date ∧ r.date < d + n then odUpdate lt r
        else r) := by
  induction n generalizing d ledger with
  | zero =>
      have h : ∀ r : Attendance,
          (if r.student_id = sid ∧ d ≤ r.date ∧ r.date < d + 0 then
            odUpdate lt r else r) = r := by
        intro r
        rw [if_neg]
        rintro ⟨-, h2, h3⟩
        omega
      calc approveGo sid lt 0 d ledger = ledger := rfl
        _ = ledger.map _ := (List.map_id'' h ledger).symm
  | succ n ih =>
      have step : approveGo sid lt (n + 1) d ledger =
          approveGo sid lt n (d + 1) (applyODdate sid d lt ledger) := rfl
      rw [step, ih, applyODdate_eq, List.map_map]
      apply List.map_congr_left
      intro r _
      simp only [Function.comp_apply]
      exact odStep sid d n lt r

lemma approve_leave_snd (lv : LeaveRequest) (approver now : Nat)
    (ledger : List Attendance) (hle : lv.from_date ≤ lv.to_date) :
    (approve_leave lv approver now ledger).2 =
      ledger.map (fun r =>
        if r.student_id = lv.student_id ∧ lv.from_date ≤ r.date ∧
            r.date ≤ lv.to_date then odUpdate lv.leave_type r
        else r) := by
  have h : (approve_leave lv approver now ledger).2 =
      approveGo lv.student_id lv.leave_type (lv.to_date + 1 - lv.from_date)
        lv.from_date ledger := rfl
  rw [h, approveGo_eq_map]
  apply List.map_congr_left
  intro r _
  by_cases h1 : r.student_id = lv.student_id ∧ lv.from_date ≤ r.date ∧
      r.date ≤ lv.to_date
  · rw [if_pos ⟨h1.1, h1.2.1, by omega⟩, if_pos h1]
  · rw [if_neg, if_neg h1]
    rintro ⟨ha, hb, hc⟩
    exact h1 ⟨ha, hb, by omega⟩

/-! ## Claim C1 — replacement semantics of `mark_attendance` -/

def c1Entry1 : Entry := Entry.mk 1 ("Present") ""

def c1Entry2 : Entry := Entry.mk 2 ("Present") ""

def c1Ledger1 : List Attendance :=
  [mkAttendance 1 1 0 ("FN") none 0 c1Entry1]

def c1Ledger2 : List Attendance :=
  c1Ledger1 ++ [mkAttendance 1 2 0 ("FN") none 1 c1Entry2]

/-- Claim C1 is false as stated: `mark_attendance` deletes only the records
of the current teacher for the session key.  Teacher 1 marks student 1 for
subject 1, date 0, FN, no period; teacher 2 then marks student 2 for the
same key.  Both records exist afterwards — the record of student 1 from the
first call is *not* removed, contradicting the claim that only the records
of the second call exist for that key. -/
theorem c1_counterexample :
    mark_attendance 1 1 0 ("FN") none [c1Entry1] 0 [] = Except.ok c1Ledger1 ∧
    mark_attendance 1 2 0 ("FN") none [c1Entry2] 1 c1Ledger1 =
      Except.ok c1Ledger2 ∧
    (c1Ledger2.filter (fun r => r.subject_id = 1 && r.date = 0 &&
        r.session_type = "FN" && r.period = none)).map
      (fun r => r.student_id) = [1, 2] :=
  ⟨rfl, rfl, rfl⟩

/-- Claim C1, amended: `mark_attendance` removes only the existing records
matching `(subjectId, date, sessionType, period)` *that were created by the
current teacher*, then inserts one record per submitted entry stamped with
that teacher; consequently, after a successful call (in particular the
second of two successive calls by the same teacher), the records of that
teacher for the key are exactly the records of that call. -/
theorem c1_amended (subj teach d : Nat) (st : String) (p : Option Nat)
    (entries : List Entry) (now : Nat) (ledger L : List Attendance)
    (h : mark_attendance subj teach d st p entries now ledger = Except.ok L) :
    L = ledger.filter (fun r => !(matchesSession subj teach d st p r)) ++
      entries.map (mkAttendance subj teach d st p now) ∧
    L.filter (matchesSession subj teach d st p) =
      entries.map (mkAttendance subj teach d st p now) := by
  have hL := mark_attendance_eq_ok h
  refine ⟨hL, ?_⟩
  rw [hL, List.filter_append]
  have h1 : (ledger.filter (fun r => !(matchesSession subj teach d st p r))).filter
      (matchesSession subj teach d st p) = [] := by
    rw [List.filter_eq_nil_iff]
    intro a ha
    have hm := (List.mem_filter.mp ha).2
    rw [Bool.not_eq_true'] at hm
    simp [hm]
  have h2 : (entries.map (mkAttendance subj teach d st p now)).filter
      (matchesSession subj teach d st p) =
      entries.map (mkAttendance subj teach d st p now) := by
    rw [List.filter_eq_self]
    intro a ha
    obtain ⟨e, _, rfl⟩ := List.mem_map.mp ha
    exact matchesSession_mkAttendance subj teach d st p now e
  rw [h1, h2, List.nil_append]

def c1wLedger : List Attendance :=
  [mkAttendance 1 1 0 ("FN") none 0 c1Entry1]

/-- Witness for `c1_amended` at a concrete input. -/
theorem c1_amended_witness :
    mark_attendance 1 1 0 ("FN") none [c1Entry1] 0 [] =
      Except.ok c1wLedger ∧
    (c1wLedger = ([] : List Attendance).filter
        (fun r => !(matchesSession 1 1 0 ("FN") none r)) ++
      [c1Entry1].map (mkAttendance 1 1 0 ("FN") none 0) ∧
    c1wLedger.filter (matchesSession 1 1 0 ("FN") none) =
      [c1Entry1].map (mkAttendance 1 1 0 ("FN") none 0)) :=
  ⟨rfl, c1_amended 1 1 0 ("FN") none [c1Entry1] 0 [] c1wLedger rfl⟩

/-! ## Claim C3 — lock enforcement in `mark_attendance` -/

def c3Rec1 : Attendance :=
  Attendance.mk 1 1 1 0 ("FN") none ("Present") "" 0 false

def c3Rec2 : Attendance :=
  Attendance.mk 2 1 1 0 ("FN") none ("Present") "" 0 true

/-- Claim C3 is false as stated: the lock check inspects only the *first*
record matching the session filter.  Here the ledger holds two records for
the same key and teacher; the second (`c3Rec2`) is locked, yet
`mark_attendance` succeeds and even deletes the locked record instead of
failing with `lockedMsg` and leaving the ledger unchanged. -/
theorem c3_counterexample :
    c3Rec2 ∈ [c3Rec1, c3Rec2] ∧
    matchesSession 1 1 0 ("FN") none c3Rec2 = true ∧
    c3Rec2.is_locked = true ∧
    mark_attendance 1 1 0 ("FN") none [Entry.mk 3 ("Present") ""] 5
        [c3Rec1, c3Rec2] =
      Except.ok [mkAttendance 1 1 0 ("FN") none 5 (Entry.mk 3 ("Present") "")] := by
  refine ⟨?_, rfl, rfl, rfl⟩
  exact List.mem_cons_of_mem _ (List.mem_cons_self _ _)

/-- Claim C3, amended: `mark_attendance` fails with the locked-session error
(and, the result being an error, performs no mutation) *iff* the first
existing record matching `(subjectId, teacherId, date, sessionType, period)`
— among records of the current teacher only — is locked.  A locked record
that is not the first match, or that belongs to a different teacher, does
not stop the operation. -/
theorem c3_amended (subj teach d : Nat) (st : String) (p : Option Nat)
    (entries : List Entry) (now : Nat) (ledger : List Attendance) :
    mark_attendance subj teach d st p entries now ledger =
        Except.error lockedMsg ↔
      ∃ r, ledger.find? (matchesSession subj teach d st p) = some r ∧
        r.is_locked = true :=
  mark_attendance_error_iff

/-! ## Claim C8 — idempotent resubmission -/

/-- Claim C8: calling `mark_attendance` twice in succession with identical
arguments leaves the ledger in the same state as calling it once, up to the
`marked_at` timestamp of the rewritten records: the second call succeeds and
the resulting ledger, record for record (including the count and the
`(student, status, remarks)` content), equals the ledger after the first
call with timestamps erased. -/
theorem c8_idempotent (subj teach d : Nat) (st : String) (p : Option Nat)
    (entries : List Entry) (now1 now2 : Nat) (ledger L1 : List Attendance)
    (h : mark_attendance subj teach d st p entries now1 ledger = Except.ok L1) :
    ∃ L2, mark_attendance subj teach d st p entries now2 L1 = Except.ok L2 ∧
      L2.map stripTime = L1.map stripTime := by
  have hL1 := mark_attendance_eq_ok h
  have hnolock : ∀ r ∈ L1, matchesSession subj teach d st p r = true →
      r.is_locked = false := by
    intro r hr hm
    rw [hL1] at hr
    rcases List.mem_append.mp hr with hA | hB
    · have hnm := (List.mem_filter.mp hA).2
      rw [Bool.not_eq_true'] at hnm
      rw [hm] at hnm
      exact Bool.noConfusion hnm
    · obtain ⟨e, _, rfl⟩ := List.mem_map.mp hB
      rfl
  refine ⟨_, mark_attendance_ok_of_no_lock hnolock, ?_⟩
  have hfilter : L1.filter (fun r => !(matchesSession subj teach d st p r)) =
      ledger.filter (fun r => !(matchesSession subj teach d st p r)) := by
    rw [hL1, List.filter_append]
    have hA : (ledger.filter (fun r => !(matchesSession subj teach d st p r))).filter
        (fun r => !(matchesSession subj teach d st p r)) =
        ledger.filter (fun r => !(matchesSession subj teach d st p r)) :=
      List.filter_eq_self.mpr (fun a ha => (List.mem_filter.mp ha).2)
    have hB : (entries.map (mkAttendance subj teach d st p now1)).filter
        (fun r => !(matchesSession subj teach d st p r)) = [] := by
      rw [List.filter_eq_nil_iff]
      intro a ha
      obtain ⟨e, _, rfl⟩ := List.mem_map.mp ha
      simp [matchesSession_mkAttendance]
    rw [hA, hB, List.append_nil]
  rw [hfilter, hL1, List.map_append, List.map_append]
  congr 1
  rw [List.map_map, List.map_map]
  apply List.map_congr_left
  intro e _
  rfl

def c8Ledger1 : List Attendance :=
  [mkAttendance 1 1 0 ("FN") none 0 (Entry.mk 1 ("Present") "")]

/-- Witness for `c8_idempotent` at a concrete input. -/
theorem c8_idempotent_witness :
    mark_attendance 1 1 0 ("FN") none [Entry.mk 1 ("Present") ""] 0 [] =
      Except.ok c8Ledger1 ∧
    ∃ L2, mark_attendance 1 1 0 ("FN") none [Entry.mk 1 ("Present") ""] 5
        c8Ledger1 = Except.ok L2 ∧
      L2.map stripTime = c8Ledger1.map stripTime :=
  ⟨rfl, c8_idempotent 1 1 0 ("FN") none [Entry.mk 1 ("Present") ""] 0 5 []
    c8Ledger1 rfl⟩

/-! ## Claim C2 — leave state transitions -/

def c2Leave : LeaveRequest :=
  LeaveRequest.mk 1 0 1 ("Medical") "" ("approved") (some 9) (some 0)

def c2Ledger : List Attendance :=
  [Attendance.mk 1 1 1 0 ("FN") none ("Absent") "" 0 false]

/-- Claim C2 is false as stated: neither `approve_leave` nor `reject_leave`
checks that the leave is `pending`.  Approving a leave that is already
`approved` does not fail with any error — it succeeds and re-runs the
reconciliation, here mutating the attendance ledger (the Absent record in
the leave window becomes OD). -/
theorem c2_counterexample :
    c2Leave.status = "approved" ∧
    (approve_leave c2Leave 7 5 c2Ledger).1.status = "approved" ∧
    (approve_leave c2Leave 7 5 c2Ledger).2 ≠ c2Ledger := by
  refine ⟨rfl, rfl, ?_⟩
  decide

/-- Claim C2, amended: `approve_leave` and `reject_leave` perform no status
precondition check at all.  Their result is independent of the current
status of the leave; `approve_leave` always succeeds, setting the status to
`approved`, stamping approver and time and re-running the reconciliation,
and `reject_leave` always succeeds, setting `rejected` and stamping, never
touching the ledger. -/
theorem c2_amended (lv : LeaveRequest) (s1 s2 : String) (approver now : Nat)
    (ledger : List Attendance) :
    approve_leave { lv with status := s1 } approver now ledger =
      approve_leave { lv with status := s2 } approver now ledger ∧
    (approve_leave lv approver now ledger).1.status = "approved" ∧
    (approve_leave lv approver now ledger).1.approved_by = some approver ∧
    (approve_leave lv approver now ledger).1.approved_at = some now ∧
    reject_leave { lv with status := s1 } approver now ledger =
      reject_leave { lv with status := s2 } approver now ledger ∧
    (reject_leave lv approver now ledger).1.status = "rejected" ∧
    (reject_leave lv approver now ledger).2 = ledger :=
  ⟨rfl, rfl, rfl, rfl, rfl, rfl, rfl⟩

/-! ## Claim C4 — leave approval reconciliation -/

/-- Claim C4: for every pending leave with `from_date ≤ to_date`,
`approve_leave` sets the leave to `approved` with approver and timestamp,
and rewrites the ledger as a pure per-record map: every existing record of
that student with date in `[from_date, to_date]` gets status `OD` and the
leave-type remark, every other record is unchanged, and no record is
created or removed (the length is preserved). -/
theorem c4_reconciliation (lv : LeaveRequest) (approver now : Nat)
    (ledger : List Attendance)
    (hpending : lv.status = "pending")
    (hrange : lv.from_date ≤ lv.to_date) :
    (approve_leave lv approver now ledger).1.status = "approved" ∧
    (approve_leave lv approver now ledger).1.approved_by = some approver ∧
    (approve_leave lv approver now ledger).1.approved_at = some now ∧
    (approve_leave lv approver now ledger).2 =
      ledger.map (fun r =>
        if r.student_id = lv.student_id ∧ lv.from_date ≤ r.date ∧
            r.date ≤ lv.to_date then odUpdate lv.leave_type r
        else r) ∧
    (approve_leave lv approver now ledger).2.length = ledger.length := by
  refine ⟨rfl, rfl, rfl, approve_leave_snd lv approver now ledger hrange, ?_⟩
  rw [approve_leave_snd lv approver now ledger hrange, List.length_map]

def c4Leave : LeaveRequest :=
  LeaveRequest.mk 1 0 2 ("Medical") "" ("pending") none none

def c4Ledger : List Attendance :=
  [Attendance.mk 1 1 1 0 ("FN") none ("Absent") "" 0 false,
   Attendance.mk 1 1 1 5 ("FN") none ("Present") "" 0 false]

/-- Witness for `c4_reconciliation` at a concrete input. -/
theorem c4_reconciliation_witness :
    c4Leave.status = "pending" ∧ c4Leave.from_date ≤ c4Leave.to_date ∧
    ((approve_leave c4Leave 7 9 c4Ledger).1.status = "approved" ∧
    (approve_leave c4Leave 7 9 c4Ledger).1.approved_by = some 7 ∧
    (approve_leave c4Leave 7 9 c4Ledger).1.approved_at = some 9 ∧
    (approve_leave c4Leave 7 9 c4Ledger).2 =
      c4Ledger.map (fun r =>
        if r.student_id = c4Leave.student_id ∧ c4Leave.from_date ≤ r.date ∧
            r.date ≤ c4Leave.to_date then odUpdate c4Leave.leave_type r
        else r) ∧
    (approve_leave c4Leave 7 9 c4Ledger).2.length = c4Ledger.length) :=
  ⟨rfl, by decide, c4_reconciliation c4Leave 7 9 c4Ledger rfl (by decide)⟩

/-! ## Claim C5 — the percentage formula -/

def c5r (d : Nat) (st : String) : Attendance :=
  Attendance.mk 1 1 1 d ("FN") none st "" 0 false

def c5Ledger : List Attendance :=
  [c5r 0 ("Present"), c5r 1 ("Present"), c5r 2 ("Present"), c5r 3 ("Present"),
   c5r 4 ("Present"), c5r 5 ("Present"), c5r 6 ("Late"), c5r 7 ("Late"),
   c5r 8 ("OD"), c5r 9 ("Absent")]

/-- Claim C5: for every student and filter combination,
`calculate_attendance_percentage` returns
`round(100 * countWhere(status ∈ {Present, Late, OD}) / countTotal, 2)` over
the records matching the filters (0 when no record matches); statuses other
than `Present`, `Late` and `OD` — in particular `Absent` — do not count
toward the numerator.  For a student with 10 records (6 Present, 2 Late,
1 OD, 1 Absent) it returns 90. -/
theorem c5_percentage_formula :
    (∀ (sid : Nat) (subj fromD toD : Option Nat) (ledger : List Attendance),
      calculate_attendance_percentage sid subj fromD toD ledger =
        if (ledger.filter (matchesFilters sid subj fromD toD)).length = 0 then 0
        else round2 (100 *
          ((ledger.filter (matchesFilters sid subj fromD toD)).countP
            (fun r => decide (r.status = "Present" ∨ r.status = "Late" ∨
              r.status = "OD")) : ℚ) /
          ((ledger.filter (matchesFilters sid subj fromD toD)).length : ℚ))) ∧
    calculate_attendance_percentage 1 none none none c5Ledger = 90 := by
  constructor
  · intro sid subj fromD toD ledger
    rw [calculate_eq]
    by_cases h : (ledger.filter (matchesFilters sid subj fromD toD)).length = 0
    · rw [if_pos h, if_pos h]
    · rw [if_neg h, if_neg h]
      congr 1
      rw [List.countP_eq_length_filter,
        List.filter_congr
          (fun (a : Attendance) _ => (presentStatus_eq a.status).symm)]
      ring
  · have h1 : (c5Ledger.filter (matchesFilters 1 none none none)).length = 10 :=
      rfl
    have h2 : ((c5Ledger.filter (matchesFilters 1 none none none)).filter
        (fun r => presentStatus r.status)).length = 9 := rfl
    rw [calculate_eq, h2, h1, if_neg (by norm_num)]
    rw [round2_eq_intCast (n := 9000) (by push_cast; norm_num)]
    norm_num

/-! ## Claim C6 — zero-denominator percentage -/

/-- Claim C6: whenever no attendance record matches the student and filter
combination, `calculate_attendance_percentage` returns 0 — not an error and
not NaN (the zero case is returned before any division happens). -/
theorem c6_zero_denominator (sid : Nat) (subj fromD toD : Option Nat)
    (ledger : List Attendance)
    (h : (ledger.filter (matchesFilters sid subj fromD toD)).length = 0) :
    calculate_attendance_percentage sid subj fromD toD ledger = 0 := by
  rw [calculate_eq, if_pos h]

/-- Witness for `c6_zero_denominator`: a student with no records at all. -/
theorem c6_zero_denominator_witness :
    (([] : List Attendance).filter (matchesFilters 1 none none none)).length
        = 0 ∧
    calculate_attendance_percentage 1 none none none [] = 0 :=
  ⟨rfl, c6_zero_denominator 1 none none none [] rfl⟩

/-! ## Claim C10 — percentage bounds -/

/-- Claim C10: for every student and filter combination the percentage lies
in `[0, 100]`: the present count never exceeds the total count, so the
rounded ratio stays within bounds. -/
theorem c10_percentage_bounds (sid : Nat) (subj fromD toD : Option Nat)
    (ledger : List Attendance) :
    0 ≤ calculate_attendance_percentage sid subj fromD toD ledger ∧
    calculate_attendance_percentage sid subj fromD toD ledger ≤ 100 := by
  rw [calculate_eq]
  by_cases h : (ledger.filter (matchesFilters sid subj fromD toD)).length = 0
  · rw [if_pos h]
    norm_num
  · rw [if_neg h]
    have hp : ((ledger.filter (matchesFilters sid subj fromD toD)).filter
        (fun r => presentStatus r.status)).length ≤
        (ledger.filter (matchesFilters sid subj fromD toD)).length :=
      List.length_filter_le _ _
    have ht : (0:ℚ) <
        ((ledger.filter (matchesFilters sid subj fromD toD)).length : ℚ) := by
      exact_mod_cast Nat.pos_of_ne_zero h
    have hple : (((ledger.filter (matchesFilters sid subj fromD toD)).filter
        (fun r => presentStatus r.status)).length : ℚ) ≤
        ((ledger.filter (matchesFilters sid subj fromD toD)).length : ℚ) := by
      exact_mod_cast hp
    have hq0 : 0 ≤ (((ledger.filter (matchesFilters sid subj fromD toD)).filter
        (fun r => presentStatus r.status)).length : ℚ) /
        ((ledger.filter (matchesFilters sid subj fromD toD)).length : ℚ) * 100 :=
      mul_nonneg (div_nonneg (Nat.cast_nonneg _) (Nat.cast_nonneg _))
        (by norm_num)
    have hq1 : (((ledger.filter (matchesFilters sid subj fromD toD)).filter
        (fun r => presentStatus r.status)).length : ℚ) /
        ((ledger.filter (matchesFilters sid subj fromD toD)).length : ℚ) * 100
        ≤ 100 := by
      have hd : (((ledger.filter (matchesFilters sid subj fromD toD)).filter
          (fun r => presentStatus r.status)).length : ℚ) /
          ((ledger.filter (matchesFilters sid subj fromD toD)).length : ℚ) ≤ 1 :=
        (div_le_one ht).mpr hple
      nlinarith
    exact ⟨round2_nonneg hq0, round2_le_100 hq1⟩

/-! ## Helper lemmas about `get_defaulter_students` -/

lemma defaulters_eq (threshold : ℚ) (students : List Student)
    (ledger : List Attendance) :
    get_defaulter_students threshold students ledger =
      (((students.filter (fun s => s.is_active &&
            ledger.any (fun r => r.student_id = s.id))).map
          (fun s => (s, if 0 < (studentAgg s.id ledger).1 then
            round2 ((((studentAgg s.id ledger).2 : ℚ) /
              ((studentAgg s.id ledger).1 : ℚ)) * 100)
          else 0))).filter (fun sp => decide (sp.2 < threshold)) ++
        (if 0 < threshold then
          (students.filter (fun s => s.is_active &&
              !(ledger.any (fun r => r.student_id = s.id)))).map
            (fun s => (s, (0 : ℚ)))
        else [])).mergeSort (fun a b => decide (a.2 ≤ b.2)) := rfl

lemma studentAgg_perc_eq (sid : Nat) (ledger : List Attendance) :
    (if 0 < (studentAgg sid ledger).1 then
      round2 ((((studentAgg sid ledger).2 : ℚ) /
        ((studentAgg sid ledger).1 : ℚ)) * 100)
    else 0) = calculate_attendance_percentage sid none none none ledger := by
  simp only [studentAgg]
  rw [calculate_eq]
  rw [show ledger.filter (matchesFilters sid none none none) =
      ledger.filter (fun r => decide (r.student_id = sid)) from
    List.filter_congr (fun a _ => matchesFilters_none sid a)]
  rw [show (ledger.filter (fun r => decide (r.student_id = sid))).filter
      (fun r => presentStatus r.status) =
      ledger.filter (fun a => presentStatus a.status &&
        decide (a.student_id = sid)) from List.filter_filter _ _]
  rw [show ledger.filter (fun a => presentStatus a.status &&
      decide (a.student_id = sid)) =
      ledger.filter (fun a => decide (a.student_id = sid) &&
        presentStatus a.status) from
    List.filter_congr (fun a _ => Bool.and_comm _ _)]
  by_cases h0 : (ledger.filter (fun r => decide (r.student_id = sid))).length = 0
  · rw [if_pos h0, if_neg (by omega)]
  · rw [if_neg h0, if_pos (Nat.pos_of_ne_zero h0)]

lemma calc_zero_of_no_rows (sid : Nat) (ledger : List Attendance)
    (h : ledger.any (fun r => r.student_id = sid) = false) :
    calculate_attendance_percentage sid none none none ledger = 0 := by
  rw [calculate_eq, if_pos]
  rw [List.length_eq_zero, List.filter_eq_nil_iff]
  intro a ha
  rw [matchesFilters_none]
  simp only [decide_eq_true_eq]
  intro hsid
  have hany : ledger.any (fun r => r.student_id = sid) = true :=
    List.any_eq_true.mpr ⟨a, ha, by simp [hsid]⟩
  rw [h] at hany
  exact Bool.noConfusion hany

lemma pairwise_defaulters (threshold : ℚ) (students : List Student)
    (ledger : List Attendance) :
    List.Pairwise (fun a b : Student × ℚ => a.2 ≤ b.2)
      (get_defaulter_students threshold students ledger) := by
  rw [defaulters_eq]
  have htrans : ∀ a b c : Student × ℚ,
      (fun x y : Student × ℚ => decide (x.2 ≤ y.2)) a b →
      (fun x y : Student × ℚ => decide (x.2 ≤ y.2)) b c →
      (fun x y : Student × ℚ => decide (x.2 ≤ y.2)) a c := by
    intro a b c hab hbc
    exact decide_eq_true
      (le_trans (of_decide_eq_true hab) (of_decide_eq_true hbc))
  have htotal : ∀ a b : Student × ℚ,
      ((fun x y : Student × ℚ => decide (x.2 ≤ y.2)) a b ||
       (fun x y : Student × ℚ => decide (x.2 ≤ y.2)) b a) = true := by
    intro a b
    rw [Bool.or_eq_true]
    rcases le_total a.2 b.2 with h | h
    · exact Or.inl (decide_eq_true h)
    · exact Or.inr (decide_eq_true h)
  exact (List.sorted_mergeSort htrans htotal _).imp
    (fun h => of_decide_eq_true h)

/-! ## Claim C7 — defaulter list -/

/-- Claim C7: `get_defaulter_students threshold` returns exactly the active
students whose ledger-wide overall percentage (the unfiltered
`calculate_attendance_percentage`, which is 0 for a student with no records
at all) is strictly below the threshold, each paired with that percentage,
and the output is sorted ascending by percentage.  Inactive students never
appear. -/
theorem c7_defaulters (threshold : ℚ) (students : List Student)
    (ledger : List Attendance) :
    (∀ (s : Student) (p : ℚ),
      (s, p) ∈ get_defaulter_students threshold students ledger ↔
        s ∈ students ∧ s.is_active = true ∧
          p = calculate_attendance_percentage s.id none none none ledger ∧
          p < threshold) ∧
    List.Pairwise (fun a b : Student × ℚ => a.2 ≤ b.2)
      (get_defaulter_students threshold students ledger) := by
  refine ⟨?_, pairwise_defaulters threshold students ledger⟩
  intro s p
  rw [defaulters_eq, List.mem_mergeSort, List.mem_append]
  constructor
  · rintro (h1 | h2)
    · obtain ⟨hmm, hdec⟩ := List.mem_filter.mp h1
      obtain ⟨s', hs', heq⟩ := List.mem_map.mp hmm
      rw [Prod.mk.injEq] at heq
      obtain ⟨rfl, hperc⟩ := heq
      obtain ⟨hsin, hcond⟩ := List.mem_filter.mp hs'
      rw [Bool.and_eq_true] at hcond
      refine ⟨hsin, hcond.1, ?_, ?_⟩
      · rw [← hperc, studentAgg_perc_eq]
      · exact of_decide_eq_true hdec
    · split_ifs at h2 with ht
      · obtain ⟨s', hs', heq⟩ := List.mem_map.mp h2
        rw [Prod.mk.injEq] at heq
        obtain ⟨rfl, hp0⟩ := heq
        obtain ⟨hsin, hcond⟩ := List.mem_filter.mp hs'
        rw [Bool.and_eq_true] at hcond
        have hanyf : ledger.any (fun r => r.student_id = s'.id) = false := by
          have hc := hcond.2
          rw [Bool.not_eq_true'] at hc
          exact hc
        refine ⟨hsin, hcond.1, ?_, ?_⟩
        · rw [← hp0, calc_zero_of_no_rows s'.id ledger hanyf]
        · rw [← hp0]
          exact ht
      · exact absurd h2 (List.not_mem_nil _)
  · rintro ⟨hsin, hact, hcalc, hlt⟩
    by_cases hany : ledger.any (fun r => r.student_id = s.id) = true
    · left
      apply List.mem_filter.mpr
      refine ⟨List.mem_map.mpr ⟨s, List.mem_filter.mpr ⟨hsin, ?_⟩, ?_⟩, ?_⟩
      · rw [Bool.and_eq_true]
        exact ⟨hact, hany⟩
      · rw [Prod.mk.injEq]
        refine ⟨rfl, ?_⟩
        rw [studentAgg_perc_eq, ← hcalc]
      · exact decide_eq_true hlt
    · right
      have hanyf : ledger.any (fun r => r.student_id = s.id) = false := by
        rw [← Bool.not_eq_true]
        exact hany
      have hcalc0 := calc_zero_of_no_rows s.id ledger hanyf
      have hp0 : p = 0 := by rw [hcalc, hcalc0]
      have ht : (0:ℚ) < threshold := by
        rw [← hp0]
        exact hlt
      rw [if_pos ht]
      apply List.mem_map.mpr
      refine ⟨s, List.mem_filter.mpr ⟨hsin, ?_⟩, ?_⟩
      · rw [Bool.and_eq_true]
        refine ⟨hact, ?_⟩
        rw [hanyf]
        rfl
      · rw [Prod.mk.injEq]
        exact ⟨rfl, hp0.symm⟩

/-! ## Claim C9 — non-positive thresholds -/

/-- Claim C9: for every threshold `t ≤ 0`, `get_defaulter_students t`
returns the empty list: a student with records is kept only when their
(always non-negative) percentage is strictly below `t`, and zero-record
students are appended only under the guard `0 < t`. -/
theorem c9_nonpositive_threshold (threshold : ℚ) (students : List Student)
    (ledger : List Attendance) (h : threshold ≤ 0) :
    get_defaulter_students threshold students ledger = [] := by
  rw [defaulters_eq]
  have hpart1 : ((students.filter (fun s => s.is_active &&
      ledger.any (fun r => r.student_id = s.id))).map
        (fun s => (s, if 0 < (studentAgg s.id ledger).1 then
          round2 ((((studentAgg s.id ledger).2 : ℚ) /
            ((studentAgg s.id ledger).1 : ℚ)) * 100)
        else 0))).filter (fun sp => decide (sp.2 < threshold)) = [] := by
    rw [List.filter_eq_nil_iff]
    intro sp hsp hdec
    obtain ⟨s, _, rfl⟩ := List.mem_map.mp hsp
    have hlt : (if 0 < (studentAgg s.id ledger).1 then
        round2 ((((studentAgg s.id ledger).2 : ℚ) /
          ((studentAgg s.id ledger).1 : ℚ)) * 100)
      else 0) < threshold := of_decide_eq_true hdec
    have h0 : (0:ℚ) ≤ (if 0 < (studentAgg s.id ledger).1 then
        round2 ((((studentAgg s.id ledger).2 : ℚ) /
          ((studentAgg s.id ledger).1 : ℚ)) * 100)
      else 0) := by
      split_ifs
      · exact round2_nonneg (mul_nonneg (div_nonneg (Nat.cast_nonneg _)
          (Nat.cast_nonneg _)) (by norm_num))
      · exact le_refl 0
    linarith
  have hpart2 : (if 0 < threshold then
      (students.filter (fun s => s.is_active &&
          !(ledger.any (fun r => r.student_id = s.id)))).map
        (fun s => (s, (0 : ℚ)))
    else []) = ([] : List (Student × ℚ)) := if_neg (not_lt.mpr h)
  rw [hpart1, hpart2]
  simp [List.mergeSort_nil]

def c9Student : Student := Student.mk 1 ("R1") ("Alice") true

/-- Witness for `c9_nonpositive_threshold` at a concrete input. -/
theorem c9_nonpositive_threshold_witness :
    (0:ℚ) ≤ 0 ∧ get_defaulter_students 0 [c9Student] [] = [] :=
  ⟨le_refl 0, c9_nonpositive_threshold 0 [c9Student] [] (le_refl 0)⟩

end AttendanceSys
